import Mathlib

/-!
Verification model of the moose_jump_lights real-time telemetry pipeline and
clock-synchronization protocol (firmware sketch
`ESP32_BNO085_function_check_UART.ino`).

The client-side clock-sync engine (the JavaScript `syncClock` / `finish` /
`makeEWMA` functions embedded in `PAGE_INDEX`) is modelled over `ℚ`:
`performance.now()` values and the derived rtt/offset arithmetic are IEEE
doubles in the source; the rational model reproduces the arithmetic exactly on
the values considered here.

The device side (`wsEvent`, the telemetry part of `loop`) is modelled as a
state machine over `DevState`; 32-bit unsigned quantities (`millis()`,
`micros()`, `seqNo`) are natural numbers reduced `% 2 ^ 32` wherever the
source stores them in a `uint32_t`.
-/

namespace MooseJumpLights

/-! ### Client-side clock synchronization (JS `syncClock` in `PAGE_INDEX`) -/

/-- One completed sync round as stored by the client in `results`:
`results.push({ rtt, offset })`. -/
structure SyncRound where
  rtt : ℚ
  offset : ℚ
deriving DecidableEq

/-- The per-round computation in `onMsg`:
`rtt = tA - t0; offset = ((t0 + tA) / 2) - t1`, where `t1 = d.t1_ms` is the
device millisecond clock embedded in the reply. -/
def clientRound (t0 tA : ℚ) (t1 : ℕ) : SyncRound :=
  ⟨tA - t0, (t0 + tA) / 2 - (t1 : ℚ)⟩

/-- One round of a batch as seen on the wire: the client's send time `t0`,
and either `some (tA, t1)` (reply observed at client time `tA` carrying device
clock `t1`) or `none` (the round timed out; no reply is ever processed). -/
structure RoundMsg where
  t0 : ℚ
  reply : Option (ℚ × ℕ)
deriving DecidableEq

/-- The round loop of `syncClock`: `tryOnce` sends one request at a time; on a
reply the result is pushed and the next round starts while
`results.length < samples`; on a timeout no further round is started (the
timeout handler only decrements `pending`).  The collected `results` list is
therefore the maximal completed prefix of the attempted rounds, capped at
`samples` entries. -/
def collectRounds : ℕ → List RoundMsg → List SyncRound
  | _, [] => []
  | samples, m :: rest =>
    match m.reply with
    | none => []
    | some (tA, t1) =>
      if samples ≤ 1 then [clientRound m.t0 tA t1]
      else clientRound m.t0 tA t1 :: collectRounds (samples - 1) rest

/-- Ordering of rounds by round-trip time, the comparator
`(a,b) => a.rtt - b.rtt` of `results.sort`. -/
def rttLE (a b : SyncRound) : Prop := a.rtt ≤ b.rtt

instance : DecidableRel rttLE := fun a b => inferInstanceAs (Decidable (a.rtt ≤ b.rtt))

instance : IsTotal SyncRound rttLE := ⟨fun a b => le_total a.rtt b.rtt⟩

instance : IsTrans SyncRound rttLE := ⟨fun _ _ _ h h' => le_trans h h'⟩

/-- `results.slice(0, Math.max(1, Math.floor(results.length / 2)))` applied to
the RTT-sorted results: the lowest-RTT half of the rounds (at least one). -/
def bestHalf (rs : List SyncRound) : List SyncRound :=
  (List.insertionSort rttLE rs).take (max 1 (rs.length / 2))

/-- The rounds not selected by `bestHalf`. -/
def restHalf (rs : List SyncRound) : List SyncRound :=
  (List.insertionSort rttLE rs).drop (max 1 (rs.length / 2))

/-- `offsets[Math.floor(offsets.length / 2)]` after numerically sorting the
offsets: the middle element of the sorted list (the upper middle when the
length is even). -/
def medianQ (offs : List ℚ) : ℚ :=
  let s := List.insertionSort (fun a b => a ≤ b) offs
  s.getD (s.length / 2) 0

/-- The `finish` closure of `syncClock`: sort the results by RTT, keep the
best half, and produce `(bestRtt, median offset)` where
`bestRtt = best[0].rtt`.  Returns `none` when there are no results (in the
source, `finish` is only ever invoked with `results.length >= 1`). -/
def finish (rs : List SyncRound) : Option (ℚ × ℚ) :=
  match bestHalf rs with
  | [] => none
  | b :: bs => some (b.rtt, medianQ (List.map SyncRound.offset (b :: bs)))

/-- `makeEWMA`: the value together with the `has` flag distinguishing a
seeded filter from an unseeded one. -/
structure Ewma where
  val : ℚ
  has : Bool
deriving DecidableEq

/-- `update(x){ val = has ? (alpha*x + (1-alpha)*val) : x; has = true }`. -/
def Ewma.update (e : Ewma) (alpha x : ℚ) : Ewma :=
  ⟨if e.has then alpha * x + (1 - alpha) * e.val else x, true⟩

/-- The client's running clock estimate: `rttEwma = makeEWMA(0.3)` and
`offsetEwma = makeEWMA(0.2)`. -/
structure ClockEstimate where
  rttEwma : Ewma
  offsetEwma : Ewma
deriving DecidableEq

/-- One whole batch of `syncClock(samples)`: run the rounds, and if `finish`
fires (at least one completed round) fold `bestRtt` and the median offset into
the two EWMAs; otherwise the estimate is untouched. -/
def syncClock (samples : ℕ) (msgs : List RoundMsg) (ce : ClockEstimate) : ClockEstimate :=
  match finish (collectRounds samples msgs) with
  | none => ce
  | some (bestRtt, med) =>
    ⟨ce.rttEwma.update (0.3 : ℚ) bestRtt, ce.offsetEwma.update (0.2 : ℚ) med⟩

/-! ### Theorems: client-side sync claims -/

/-- C1: in every completed clock-sync round of a batch, the collected result
is computed from that round's timestamps as `rtt = tA - t0` and
`offset = ((t0 + tA)/2) - t1`, where `t0` is the client's local send time,
`tA` the client's local receive time, and `t1` the device clock embedded in
the reply. -/
theorem client_computes_rtt_offset (samples : ℕ) (msgs : List RoundMsg) (r : SyncRound)
    (h : r ∈ collectRounds samples msgs) :
    ∃ m ∈ msgs, ∃ tA t1, m.reply = some (tA, t1) ∧
      r.rtt = tA - m.t0 ∧ r.offset = (m.t0 + tA) / 2 - (t1 : ℚ) := by
  induction msgs generalizing samples with
  | nil => simp [collectRounds] at h
  | cons m rest ih =>
    rcases hr : m.reply with _ | ⟨tA, t1⟩
    · simp only [collectRounds, hr] at h
      exact absurd h (List.not_mem_nil r)
    · simp only [collectRounds, hr] at h
      by_cases hs : samples ≤ 1
      · rw [if_pos hs] at h
        rcases List.mem_singleton.mp h with rfl
        exact ⟨m, by simp, tA, t1, hr, rfl, rfl⟩
      · rw [if_neg hs] at h
        rcases List.mem_cons.mp h with h1 | h2
        · subst h1
          exact ⟨m, by simp, tA, t1, hr, rfl, rfl⟩
        · obtain ⟨m', hm', tA', t1', hrep, h1, h2⟩ := ih (samples - 1) h2
          exact ⟨m', by simp [hm'], tA', t1', hrep, h1, h2⟩

/-- The batch of the C1 example round: `t0 = 1000.0`, `tA = 1050.0`,
`t1 = 1020`. -/
def msgsEx : List RoundMsg := [⟨1000, some (1050, 1020)⟩]

/-- Witness for C1: the example round yields exactly `rtt = 50.0` and
`offset = 5.0`, and the general theorem applies to it. -/
theorem client_computes_rtt_offset_witness :
    collectRounds 8 msgsEx = [⟨50, 5⟩] ∧
    (∃ m ∈ msgsEx, ∃ tA t1, m.reply = some (tA, t1) ∧
      (SyncRound.mk 50 5).rtt = tA - m.t0 ∧
      (SyncRound.mk 50 5).offset = (m.t0 + tA) / 2 - (t1 : ℚ)) := by
  have hev : collectRounds 8 msgsEx = [⟨50, 5⟩] := by
    norm_num [collectRounds, clientRound, msgsEx]
  exact ⟨hev, client_computes_rtt_offset 8 msgsEx ⟨50, 5⟩ (by rw [hev]; simp)⟩

/-- C2: a nonempty batch's `finish` keeps exactly `max 1 ⌊n/2⌋` rounds, all of
them of RTT no larger than any discarded round's RTT, and the batch offset is
the median of the offsets within that lowest-RTT subset (the middle element of
the sorted offsets), not a mean over all rounds. -/
theorem best_half_median (rs : List SyncRound) (h : rs ≠ []) :
    (bestHalf rs).length = max 1 (rs.length / 2) ∧
    (∀ a ∈ bestHalf rs, ∀ b ∈ restHalf rs, a.rtt ≤ b.rtt) ∧
    ∃ b0 bs, bestHalf rs = b0 :: bs ∧
      finish rs = some (b0.rtt, medianQ (List.map SyncRound.offset (bestHalf rs))) := by
  have hn : 0 < rs.length := List.length_pos.mpr h
  have hlen : (List.insertionSort rttLE rs).length = rs.length :=
    (List.perm_insertionSort rttLE rs).length_eq
  have hbl : (bestHalf rs).length = max 1 (rs.length / 2) := by
    rw [bestHalf, List.length_take, hlen]
    have := Nat.div_le_self rs.length 2
    omega
  refine ⟨hbl, ?_, ?_⟩
  · intro a ha b hb
    exact (List.sorted_insertionSort rttLE rs).rel_of_mem_take_of_mem_drop ha hb
  · rcases hbh : bestHalf rs with _ | ⟨b0, bs⟩
    · rw [hbh] at hbl
      simp at hbl
      omega
    · refine ⟨b0, bs, rfl, ?_⟩
      rw [finish, hbh]

/-- The 8-round batch of the C2 example, in arrival order; the RTTs are
`[40,42,45,48,50,60,70,200]` ms. -/
def rsEx : List SyncRound :=
  [⟨50, 1⟩, ⟨40, 3⟩, ⟨200, 100⟩, ⟨42, 5⟩, ⟨48, 10⟩, ⟨45, 4⟩, ⟨70, 7⟩, ⟨60, 2⟩]

/-- Witness for C2: on the example batch the best half is exactly the 4
lowest-RTT rounds, the batch offset is the median of those 4 offsets (`5`),
and it differs from the mean over all 8 offsets (`16.5`). -/
theorem best_half_median_witness :
    ((bestHalf rsEx).length = max 1 (rsEx.length / 2) ∧
      (∀ a ∈ bestHalf rsEx, ∀ b ∈ restHalf rsEx, a.rtt ≤ b.rtt) ∧
      ∃ b0 bs, bestHalf rsEx = b0 :: bs ∧
        finish rsEx = some (b0.rtt, medianQ (List.map SyncRound.offset (bestHalf rsEx)))) ∧
    bestHalf rsEx = [⟨40, 3⟩, ⟨42, 5⟩, ⟨45, 4⟩, ⟨48, 10⟩] ∧
    finish rsEx = some (40, 5) ∧
    medianQ (List.map SyncRound.offset (bestHalf rsEx)) ≠
      (List.map SyncRound.offset rsEx).sum / 8 := by
  refine ⟨best_half_median rsEx (by simp [rsEx]), ?_, ?_, ?_⟩
  · norm_num [bestHalf, rsEx, List.insertionSort, List.orderedInsert, rttLE]
  · norm_num [finish, bestHalf, medianQ, rsEx, List.insertionSort, List.orderedInsert, rttLE]
  · norm_num [bestHalf, medianQ, rsEx, List.insertionSort, List.orderedInsert, rttLE]

/-- C3: when a round of a batch times out, that round is discarded and never
retried: the batch's collected results are exactly those of the completed
rounds before the timeout, and the rounds after the timed-out one are never
attempted (the result does not depend on them). -/
theorem sync_timeout_drops (samples : ℕ) (pre : List RoundMsg) (m : RoundMsg)
    (rest : List RoundMsg) (hpre : ∀ x ∈ pre, x.reply.isSome)
    (hm : m.reply = none) (hlen : pre.length < samples) :
    collectRounds samples (pre ++ m :: rest) = collectRounds samples pre := by
  induction pre generalizing samples with
  | nil => simp only [List.nil_append, collectRounds, hm]
  | cons p ps ih =>
    obtain ⟨v, hv⟩ := Option.isSome_iff_exists.mp (hpre p (by simp))
    rcases v with ⟨tA, t1⟩
    have hs : ¬ samples ≤ 1 := by
      simp only [List.length_cons] at hlen
      omega
    simp only [List.cons_append, collectRounds, hv]
    rw [if_neg hs, if_neg hs]
    have hrec := ih (samples - 1) (fun x hx => hpre x (by simp [hx])) (by
      simp only [List.length_cons] at hlen
      omega)
    simp only [List.append_eq]
    rw [hrec]

/-- Witness for C3: an 8-round batch whose third round times out concludes
with the two earlier completed rounds, unaffected by the fourth round. -/
theorem sync_timeout_drops_witness :
    collectRounds 8
        ([⟨1, some (3, 2)⟩, ⟨10, some (14, 11)⟩] ++
          RoundMsg.mk 20 none :: [⟨30, some (31, 30)⟩]) =
      collectRounds 8 [⟨1, some (3, 2)⟩, ⟨10, some (14, 11)⟩] :=
  sync_timeout_drops 8 [⟨1, some (3, 2)⟩, ⟨10, some (14, 11)⟩] ⟨20, none⟩
    [⟨30, some (31, 30)⟩] (by simp) rfl (by simp)

/-- C5: a batch that completes with zero usable (completed) rounds leaves the
running clock estimate exactly as it was; it is never reset. -/
theorem zero_rounds_preserves_estimate (samples : ℕ) (msgs : List RoundMsg)
    (ce : ClockEstimate) (h : collectRounds samples msgs = []) :
    syncClock samples msgs ce = ce := by
  rw [syncClock, h]
  rfl

/-- Witness for C5: a batch whose first round times out (so no round
completes) leaves a concrete nonzero estimate untouched. -/
theorem zero_rounds_preserves_estimate_witness :
    syncClock 8 [⟨0, none⟩] ⟨⟨25, true⟩, ⟨3, true⟩⟩ = ⟨⟨25, true⟩, ⟨3, true⟩⟩ :=
  zero_rounds_preserves_estimate 8 [⟨0, none⟩] ⟨⟨25, true⟩, ⟨3, true⟩⟩ rfl

/-! ### Device side: control-channel handler `wsEvent` and the telemetry loop

Control messages arrive as text; the firmware dispatches by substring
scanning (`String.indexOf`).  Messages are modelled as `List Char`; Arduino's
`indexOf(pat, from)` (first occurrence at index ≥ `from`, -1 when absent)
becomes `strIndexOf` returning an `Option ℕ`, and `substring(s, e)` becomes
`substr` (the characters of positions `[s, e)`). -/

/-- Arduino `String.indexOf(pat, start)`: the least index `i ≥ start` at which
`pat` occurs in `s`, if any. -/
def strIndexOf (s pat : List Char) (start : ℕ) : Option ℕ :=
  (List.range (s.length + 1)).find? (fun i => decide (start ≤ i) && pat.isPrefixOf (s.drop i))

/-- `msg.indexOf(pat) >= 0`: `pat` occurs somewhere in `s`. -/
def containsSub (s pat : List Char) : Bool := (strIndexOf s pat 0).isSome

/-- Arduino `String.substring(a, b)`: characters of positions `[a, b)`. -/
def substr (s : List Char) (a b : ℕ) : List Char := (s.take b).drop a

/-- The dispatch tag `"type":"hello"`. -/
def helloTag : List Char := "\"type\":\"hello\"".toList

/-- The dispatch tag `"type":"sync"`. -/
def syncTag : List Char := "\"type\":\"sync\"".toList

/-- The dispatch tag `"type":"rotate"`. -/
def rotateTag : List Char := "\"type\":\"rotate\"".toList

/-- The field key `"ip":"` (6 characters, matching the `k + 6` offset). -/
def ipKey : List Char := "\"ip\":\"".toList

/-- The field key `"t0":` (5 characters, matching the `k + 5` offset). -/
def t0Key : List Char := "\"t0\":".toList

/-- The field key `"kind":"` (8 characters, matching the `k2 + 8` offset). -/
def kindKey : List Char := "\"kind\":\"".toList

/-- The field key `"note":"` (8 characters, matching the `n + 8` offset). -/
def noteKey : List Char := "\"note\":\"".toList

/-- A double-quote character, the closing delimiter searched for by the
field extractions. -/
def quoteMark : List Char := "\"".toList

/-- The address value `IPAddress(0,0,0,0)` as a dotted-quad string: the
sentinel meaning "no datagram endpoint registered". -/
def noIP : List Char := "0.0.0.0".toList

/-- The `hello` branch's address extraction:
`k = msg.indexOf("\"ip\":\""); s = k + 6; e = msg.indexOf("\"", s);
if (e > s) lastClientIP.fromString(msg.substring(s, e))`.
Returns the address text when the firmware would overwrite `lastClientIP`,
`none` when it leaves it untouched.  (`IPAddress::fromString` is external
library code; the registered endpoint is identified by its address text.) -/
def helloIP (msg : List Char) : Option (List Char) :=
  match strIndexOf msg ipKey 0 with
  | none => none
  | some k =>
    match strIndexOf msg quoteMark (k + 6) with
    | none => none
    | some e => if k + 6 < e then some (substr msg (k + 6) e) else none

/-- The `sync` branch's `t0` extraction:
`k = msg.indexOf("\"t0\":"); s = k + 5; e = msg.indexOf(",", s);
if (e < 0) e = msg.indexOf("}", s); if (e > s) t0 = ...toDouble()`.
The reply carries the extracted text (`[]` standing for the default `0`; the
`toDouble`/`%.3f` round trip is external string formatting). -/
def extractT0 (msg : List Char) : List Char :=
  match strIndexOf msg t0Key 0 with
  | none => []
  | some k =>
    match (match strIndexOf msg ",".toList (k + 5) with
           | some e => some e
           | none => strIndexOf msg "\x7d".toList (k + 5)) with
    | none => []
    | some e => if k + 5 < e then substr msg (k + 5) e else []

/-- The event branch's field extraction for `kind` and `note`:
`i = msg.indexOf(key); if (i >= 0) { s = i + key.length; e = msg.indexOf("\"", s);
field = msg.substring(s, e); }`.  When no closing quote exists, `e = -1` and
Arduino's `substring` clamps the huge unsigned bound to the string length. -/
def extractField (msg key : List Char) : List Char :=
  match strIndexOf msg key 0 with
  | none => []
  | some k =>
    match strIndexOf msg quoteMark (k + key.length) with
    | none => substr msg (k + key.length) msg.length
    | some e => substr msg (k + key.length) e

/-- `note.replace(",", " ")`. -/
def sanitizeNote (note : List Char) : List Char :=
  note.map (fun c => if c = ',' then ' ' else c)

/-- The device state touched by the modelled core: the registered datagram
endpoint `lastClientIP`, the stream sequence counter `seqNo` (`uint32_t`) and
the send-throttle timestamp `lastSend` (`uint32_t` milliseconds). -/
structure DevState where
  lastClientIP : List Char
  seqNo : ℕ
  lastSend : ℕ
deriving DecidableEq

/-- The state after `setup()`: `lastClientIP = IPAddress(0,0,0,0)`, `seqNo = 0`
and the function-local `lastSend = 0`. -/
def initState : DevState := ⟨noIP, 0, 0⟩

/-- The replies `wsEvent` can send on the control channel, one constructor per
`ws.sendTXT` in the handler. -/
inductive WsReply where
  | ackHello
  | syncReply (t0 : List Char) (t1 : ℕ)
  | ackRotate
  | ackEvent (kind note : List Char)
deriving DecidableEq

/-- The WebSocket text-message handler `wsEvent`: dispatch by substring
scanning, in source order (`hello`, then `sync`, then `rotate`, with
everything else falling through to the event branch, which always replies
`{"type":"ack","cmd":"event"}`).  `nowMs` is the value `millis()` would
return; the log append of the event branch is external collaborator state. -/
def wsEvent (st : DevState) (msg : List Char) (nowMs : ℕ) : DevState × List WsReply :=
  if containsSub msg helloTag then
    (match helloIP msg with
     | some ip => { st with lastClientIP := ip }
     | none => st,
     [WsReply.ackHello])
  else if containsSub msg syncTag then
    (st, [WsReply.syncReply (extractT0 msg) (nowMs % 2 ^ 32)])
  else if containsSub msg rotateTag then
    (st, [WsReply.ackRotate])
  else
    (st, [WsReply.ackEvent (extractField msg kindKey) (sanitizeNote (extractField msg noteKey))])

/-! ### Device side: the telemetry part of `loop()` -/

/-- A sensor sample (`BNO08x_RVC_Data`): single-precision floats, modelled as
their exact rational values. -/
structure Sample where
  yaw : ℚ
  pitch : ℚ
  roll : ℚ
  ax : ℚ
  ay : ℚ
  az : ℚ
deriving DecidableEq

/-- The inputs one `loop()` iteration draws from the environment:
`rvc.read(&d)` (`none` when no sample is available), `millis()` and the two
`micros()` reads at acquisition and just before send. -/
structure TickIn where
  sample : Option Sample
  t_ms : ℕ
  tr_us : ℕ
  ts_us : ℕ
deriving DecidableEq

/-- `%.2f` formatting of a value in the JSON data frame: the value rounded to
two decimal places. -/
def fmt2 (x : ℚ) : ℚ := ((round (x * 100) : ℤ) : ℚ) / 100

/-- `%.3f` formatting of a value in the JSON data frame: the value rounded to
three decimal places. -/
def fmt3 (x : ℚ) : ℚ := ((round (x * 1000) : ℤ) : ℚ) / 1000

/-- The JSON data frame broadcast on the WebSocket:
`{"type":"data","seq":…,"t":…,"tr_us":…,"ts_us":…,"yaw":…,…}` with the float
fields printed via `%.2f` (angles) and `%.3f` (accelerations). -/
structure DataFrame where
  seq : ℕ
  t_ms : ℕ
  tr_us : ℕ
  ts_us : ℕ
  yaw : ℚ
  pitch : ℚ
  roll : ℚ
  ax : ℚ
  ay : ℚ
  az : ℚ
deriving DecidableEq

/-- The binary UDP telemetry packet (`struct TelemetryPkt`, little-endian,
packed): `seq`, `t_ms`, `tr_us`, `ts_us` as `uint32_t` and the six floats
verbatim. -/
structure TelemetryPkt where
  seq : ℕ
  t_ms : ℕ
  tr_us : ℕ
  ts_us : ℕ
  yaw : ℚ
  pitch : ℚ
  roll : ℚ
  ax : ℚ
  ay : ℚ
  az : ℚ
deriving DecidableEq

/-- `uint32_t` subtraction `a - b`, as used by the throttle comparison
`t_ms - lastSend >= 16`. -/
def sub32 (a b : ℕ) : ℕ := (a + 2 ^ 32 - b % 2 ^ 32) % 2 ^ 32

/-- The telemetry tail of one `loop()` iteration: if a sample was read and the
throttle window has elapsed (`t_ms - lastSend >= 16`), update `lastSend`,
increment `seqNo` (`++seqNo`, wrapping as `uint32_t`), broadcast the JSON data
frame, and — only when `lastClientIP != IPAddress(0,0,0,0)` — send the binary
UDP packet carrying the same sample.  Otherwise nothing is emitted and the
state is untouched. -/
def loopTick (st : DevState) (inp : TickIn) : DevState × Option (DataFrame × Option TelemetryPkt) :=
  match inp.sample with
  | none => (st, none)
  | some d =>
    if 16 ≤ sub32 (inp.t_ms % 2 ^ 32) st.lastSend then
      let thisSeq := (st.seqNo + 1) % 2 ^ 32
      let frame : DataFrame :=
        ⟨thisSeq, inp.t_ms % 2 ^ 32, inp.tr_us % 2 ^ 32, inp.ts_us % 2 ^ 32,
          fmt2 d.yaw, fmt2 d.pitch, fmt2 d.roll, fmt3 d.ax, fmt3 d.ay, fmt3 d.az⟩
      let pkt : Option TelemetryPkt :=
        if st.lastClientIP ≠ noIP then
          some ⟨thisSeq, inp.t_ms % 2 ^ 32, inp.tr_us % 2 ^ 32, inp.ts_us % 2 ^ 32,
            d.yaw, d.pitch, d.roll, d.ax, d.ay, d.az⟩
        else none
      ({ st with seqNo := thisSeq, lastSend := inp.t_ms % 2 ^ 32 }, some (frame, pkt))
    else (st, none)

/-- An event of the device's single cooperative execution context: either a
WebSocket text message dispatched by `ws.loop()` or one pass through the
telemetry tail of `loop()`. -/
inductive Ev where
  | msg (m : List Char) (nowMs : ℕ)
  | tick (inp : TickIn)
deriving DecidableEq

/-- What one event produced: control-channel replies, the broadcast data
frame, and the UDP packet, when any. -/
structure StepOut where
  replies : List WsReply
  frame : Option DataFrame
  udp : Option TelemetryPkt
deriving DecidableEq

/-- One step of the device state machine. -/
def runStep (st : DevState) (e : Ev) : DevState × StepOut :=
  match e with
  | Ev.msg m now =>
    let p := wsEvent st m now
    (p.1, ⟨p.2, none, none⟩)
  | Ev.tick inp =>
    match loopTick st inp with
    | (st', none) => (st', ⟨[], none, none⟩)
    | (st', some (f, u)) => (st', ⟨[], some f, u⟩)

/-- A whole run: the final state and the per-event outputs in order. -/
def run (st : DevState) : List Ev → DevState × List StepOut
  | [] => (st, [])
  | e :: es =>
    let p := runStep st e
    let q := run p.1 es
    (q.1, p.2 :: q.2)

/-- The outputs of a run. -/
def outs (st : DevState) (es : List Ev) : List StepOut := (run st es).2

/-- All UDP telemetry packets transmitted during a run. -/
def udpPackets (st : DevState) (es : List Ev) : List TelemetryPkt :=
  (outs st es).filterMap StepOut.udp

/-- All data frames broadcast during a run. -/
def frames (st : DevState) (es : List Ev) : List DataFrame :=
  (outs st es).filterMap StepOut.frame

/-- The sequence numbers observed at a lossless receiver of the stream. -/
def emittedSeqs (st : DevState) (es : List Ev) : List ℕ :=
  (frames st es).map DataFrame.seq

/-- The device timestamps of the emitted frames. -/
def emitTimes (st : DevState) (es : List Ev) : List ℕ :=
  (frames st es).map DataFrame.t_ms

/-! ### Step lemmas for the device state machine -/

/-- A message registers a datagram endpoint exactly when the `hello` branch
runs and its address extraction succeeds. -/
def registersEndpoint (m : List Char) : Bool :=
  containsSub m helloTag && (helloIP m).isSome

theorem wsEvent_seqNo (st : DevState) (m : List Char) (now : ℕ) :
    (wsEvent st m now).1.seqNo = st.seqNo := by
  rw [wsEvent]
  split_ifs with h1 h2 h3
  · rcases hip : helloIP m with _ | ip <;> rfl
  · rfl
  · rfl
  · rfl

theorem wsEvent_lastSend (st : DevState) (m : List Char) (now : ℕ) :
    (wsEvent st m now).1.lastSend = st.lastSend := by
  rw [wsEvent]
  split_ifs with h1 h2 h3
  · rcases hip : helloIP m with _ | ip <;> rfl
  · rfl
  · rfl
  · rfl

theorem wsEvent_ip_of_not_registered (st : DevState) (m : List Char) (now : ℕ)
    (h : registersEndpoint m = false) :
    (wsEvent st m now).1.lastClientIP = st.lastClientIP := by
  rw [wsEvent]
  split_ifs with h1 h2 h3
  · rw [registersEndpoint, h1, Bool.true_and] at h
    rcases hip : helloIP m with _ | ip
    · rfl
    · rw [hip] at h
      cases h
  · rfl
  · rfl
  · rfl

theorem loopTick_no_sample (st : DevState) (inp : TickIn) (hs : inp.sample = none) :
    loopTick st inp = (st, none) := by
  rw [loopTick, hs]

theorem loopTick_skips (st : DevState) (inp : TickIn) (d : Sample)
    (hs : inp.sample = some d) (ht : ¬ 16 ≤ sub32 (inp.t_ms % 2 ^ 32) st.lastSend) :
    loopTick st inp = (st, none) := by
  rw [loopTick, hs]
  simp only [if_neg ht]

theorem loopTick_emits (st : DevState) (inp : TickIn) (d : Sample)
    (hs : inp.sample = some d) (ht : 16 ≤ sub32 (inp.t_ms % 2 ^ 32) st.lastSend) :
    loopTick st inp =
      ({ st with seqNo := (st.seqNo + 1) % 2 ^ 32, lastSend := inp.t_ms % 2 ^ 32 },
        some (⟨(st.seqNo + 1) % 2 ^ 32, inp.t_ms % 2 ^ 32, inp.tr_us % 2 ^ 32,
            inp.ts_us % 2 ^ 32, fmt2 d.yaw, fmt2 d.pitch, fmt2 d.roll,
            fmt3 d.ax, fmt3 d.ay, fmt3 d.az⟩,
          if st.lastClientIP ≠ noIP then
            some ⟨(st.seqNo + 1) % 2 ^ 32, inp.t_ms % 2 ^ 32, inp.tr_us % 2 ^ 32,
              inp.ts_us % 2 ^ 32, d.yaw, d.pitch, d.roll, d.ax, d.ay, d.az⟩
          else none)) := by
  rw [loopTick, hs]
  simp only [if_pos ht]

theorem runStep_msg_eq (st : DevState) (m : List Char) (now : ℕ) :
    runStep st (Ev.msg m now) = ((wsEvent st m now).1, ⟨(wsEvent st m now).2, none, none⟩) :=
  rfl

theorem runStep_tick_eq (st : DevState) (inp : TickIn) :
    runStep st (Ev.tick inp) =
      ((loopTick st inp).1,
        ⟨[], (loopTick st inp).2.map Prod.fst, (loopTick st inp).2.bind Prod.snd⟩) := by
  rw [runStep]
  rcases h : loopTick st inp with ⟨st', out⟩
  rcases out with _ | ⟨f, u⟩ <;> rfl

theorem outs_cons (st : DevState) (e : Ev) (es : List Ev) :
    outs st (e :: es) = (runStep st e).2 :: outs (runStep st e).1 es :=
  rfl

theorem frames_cons_none (st : DevState) (e : Ev) (es : List Ev)
    (h : (runStep st e).2.frame = none) :
    frames st (e :: es) = frames (runStep st e).1 es := by
  rw [frames, outs_cons, List.filterMap_cons, h, frames]

theorem frames_cons_some (st : DevState) (e : Ev) (es : List Ev) (f : DataFrame)
    (h : (runStep st e).2.frame = some f) :
    frames st (e :: es) = f :: frames (runStep st e).1 es := by
  rw [frames, outs_cons, List.filterMap_cons, h, frames]

/-! ### Theorems: control-channel claims -/

/-- C4 (amended): a text message matching none of the `hello`/`sync`/`rotate`
tags falls through to the event branch: the device state is unchanged and the
connection stays open, but the message is not silently ignored — the device
always replies `{"type":"ack","cmd":"event"}` (and appends an event line to
the external log). -/
theorem unrecognized_message_acks_event (st : DevState) (msg : List Char) (now : ℕ)
    (h1 : containsSub msg helloTag = false) (h2 : containsSub msg syncTag = false)
    (h3 : containsSub msg rotateTag = false) :
    wsEvent st msg now =
      (st, [WsReply.ackEvent (extractField msg kindKey)
        (sanitizeNote (extractField msg noteKey))]) := by
  rw [wsEvent, if_neg (by simp [h1]), if_neg (by simp [h2]), if_neg (by simp [h3])]

/-- A malformed control message: plain text that is not JSON and matches no
dispatch tag. -/
def garbageMsg : List Char := "lorem ipsum".toList

/-- Counterexample to C4 as stated: the malformed message `"lorem ipsum"` is
not silently ignored — the device sends an `ack`/`event` reply for it. -/
theorem malformed_message_gets_reply :
    (wsEvent initState garbageMsg 0).2 = [WsReply.ackEvent [] []] ∧
    (wsEvent initState garbageMsg 0).2 ≠ [] := by
  constructor <;> decide

/-- An unrecognized (but well-formed) control message. -/
def pingMsg : List Char := "\x7b\"type\":\"ping\"\x7d".toList

/-- Witness for the amended C4: the unrecognized message `{"type":"ping"}`
leaves the state unchanged and draws exactly the event acknowledgment. -/
theorem unrecognized_message_acks_event_witness :
    wsEvent initState pingMsg 3 =
      (initState, [WsReply.ackEvent (extractField pingMsg kindKey)
        (sanitizeNote (extractField pingMsg noteKey))]) :=
  unrecognized_message_acks_event initState pingMsg 3 (by decide) (by decide) (by decide)

/-- C7: in every run in which no message registers a datagram endpoint (in
particular, in every run with no `Hello` at all), starting from the reset
state of the endpoint, zero UDP telemetry packets are transmitted, however
many data frames flow on the control channel. -/
theorem no_hello_no_udp (st : DevState) (es : List Ev)
    (hip : st.lastClientIP = noIP)
    (h : ∀ m now, Ev.msg m now ∈ es → registersEndpoint m = false) :
    udpPackets st es = [] := by
  induction es generalizing st with
  | nil => rfl
  | cons e rest ih =>
    have hr : ∀ m now, Ev.msg m now ∈ rest → registersEndpoint m = false :=
      fun m now hm => h m now (List.mem_cons_of_mem e hm)
    rw [udpPackets, outs_cons, List.filterMap_cons]
    cases e with
    | msg m now =>
      have hreg : registersEndpoint m = false := h m now (List.mem_cons_self _ _)
      have hip' : (runStep st (Ev.msg m now)).1.lastClientIP = noIP := by
        rw [runStep_msg_eq]
        rw [wsEvent_ip_of_not_registered st m now hreg]
        exact hip
      have hud : (runStep st (Ev.msg m now)).2.udp = none := by
        rw [runStep_msg_eq]
      rw [hud]
      exact ih _ hip' hr
    | tick inp =>
      have hip' : (runStep st (Ev.tick inp)).1.lastClientIP = noIP := by
        rcases hs : inp.sample with _ | d
        · rw [runStep_tick_eq, loopTick_no_sample st inp hs]
          exact hip
        · by_cases ht : 16 ≤ sub32 (inp.t_ms % 2 ^ 32) st.lastSend
          · rw [runStep_tick_eq, loopTick_emits st inp d hs ht]
            exact hip
          · rw [runStep_tick_eq, loopTick_skips st inp d hs ht]
            exact hip
      have hud : (runStep st (Ev.tick inp)).2.udp = none := by
        rcases hs : inp.sample with _ | d
        · rw [runStep_tick_eq, loopTick_no_sample st inp hs]
          rfl
        · by_cases ht : 16 ≤ sub32 (inp.t_ms % 2 ^ 32) st.lastSend
          · rw [runStep_tick_eq, loopTick_emits st inp d hs ht]
            simp [hip]
          · rw [runStep_tick_eq, loopTick_skips st inp d hs ht]
            rfl
      rw [hud]
      exact ih _ hip' hr

/-- A fixed sample for concrete runs. -/
def s0 : Sample := ⟨0, 0, 0, 0, 0, 0⟩

/-- A concrete run with control traffic and two emitted data frames but no
`Hello` message. -/
def esNoHello : List Ev :=
  [Ev.msg garbageMsg 5, Ev.tick ⟨some s0, 16, 1, 2⟩, Ev.tick ⟨some s0, 40, 3, 4⟩]

/-- Witness for C7: the concrete run emits data frames yet sends no UDP
packet. -/
theorem no_hello_no_udp_witness :
    udpPackets initState esNoHello = [] ∧ (frames initState esNoHello).length = 2 := by
  constructor
  · refine no_hello_no_udp initState esNoHello rfl ?_
    intro m now hm
    simp only [esNoHello, List.mem_cons, List.not_mem_nil, or_false] at hm
    rcases hm with h | h | h
    · rcases h with ⟨rfl, rfl⟩
      decide
    · cases h
    · cases h
  · decide

/-- C8: processing a `Hello` is idempotent and overwriting: re-processing the
same message leaves the device state (hence every subsequent send decision)
exactly as after the first processing and re-sends the same acknowledgment,
and whenever the address extraction succeeds the registered endpoint equals
that address regardless of what was registered before (a single endpoint is
overwritten, never added to). -/
theorem hello_idempotent_overwrites (st : DevState) (m : List Char) (now now' : ℕ)
    (h : containsSub m helloTag = true) :
    wsEvent (wsEvent st m now).1 m now' = ((wsEvent st m now).1, [WsReply.ackHello]) ∧
    ∀ ip, helloIP m = some ip → (wsEvent st m now).1.lastClientIP = ip := by
  constructor
  · rcases hip : helloIP m with _ | ip
    · rw [wsEvent, if_pos h, hip, wsEvent, if_pos h, hip]
    · rw [wsEvent, if_pos h, hip, wsEvent, if_pos h, hip]
  · intro ip hip
    rw [wsEvent, if_pos h, hip]

/-- A concrete `Hello` message carrying the address `10.0.0.5`. -/
def helloMsgEx : List Char := "\x7b\"type\":\"hello\",\"ip\":\"10.0.0.5\"\x7d".toList

/-- Witness for C8: the concrete `Hello` registers `10.0.0.5`, and processing
it a second time changes nothing. -/
theorem hello_idempotent_overwrites_witness :
    (wsEvent (wsEvent initState helloMsgEx 0).1 helloMsgEx 1 =
        ((wsEvent initState helloMsgEx 0).1, [WsReply.ackHello]) ∧
      ∀ ip, helloIP helloMsgEx = some ip →
        (wsEvent initState helloMsgEx 0).1.lastClientIP = ip) ∧
    helloIP helloMsgEx = some "10.0.0.5".toList :=
  ⟨hello_idempotent_overwrites initState helloMsgEx 0 1 (by decide), by decide⟩

/-! ### Theorems: sequence numbers -/

theorem emittedSeqs_cons_none (st : DevState) (e : Ev) (es : List Ev)
    (h : (runStep st e).2.frame = none) :
    emittedSeqs st (e :: es) = emittedSeqs (runStep st e).1 es := by
  simp only [emittedSeqs]
  rw [frames_cons_none st e es h]

theorem emittedSeqs_cons_some (st : DevState) (e : Ev) (es : List Ev) (f : DataFrame)
    (h : (runStep st e).2.frame = some f) :
    emittedSeqs st (e :: es) = f.seq :: emittedSeqs (runStep st e).1 es := by
  simp only [emittedSeqs]
  rw [frames_cons_some st e es f h, List.map_cons]

theorem emittedSeqs_formula (es : List Ev) (st : DevState) :
    emittedSeqs st es =
      (List.range (frames st es).length).map (fun k => (st.seqNo + k + 1) % 2 ^ 32) := by
  induction es generalizing st with
  | nil => rfl
  | cons e rest ih =>
    cases e with
    | msg m now =>
      have hfr : (runStep st (Ev.msg m now)).2.frame = none := by rw [runStep_msg_eq]
      have hsq : (runStep st (Ev.msg m now)).1.seqNo = st.seqNo := by
        rw [runStep_msg_eq]
        exact wsEvent_seqNo st m now
      rw [emittedSeqs_cons_none st _ rest hfr, frames_cons_none st _ rest hfr, ih, hsq]
    | tick inp =>
      rcases hs : inp.sample with _ | d
      · have hlt := loopTick_no_sample st inp hs
        have hfr : (runStep st (Ev.tick inp)).2.frame = none := by
          rw [runStep_tick_eq, hlt]
          rfl
        have hsq : (runStep st (Ev.tick inp)).1.seqNo = st.seqNo := by
          rw [runStep_tick_eq, hlt]
        rw [emittedSeqs_cons_none st _ rest hfr, frames_cons_none st _ rest hfr, ih, hsq]
      · by_cases ht : 16 ≤ sub32 (inp.t_ms % 2 ^ 32) st.lastSend
        · have hlt := loopTick_emits st inp d hs ht
          have hfr : (runStep st (Ev.tick inp)).2.frame =
              some ⟨(st.seqNo + 1) % 2 ^ 32, inp.t_ms % 2 ^ 32, inp.tr_us % 2 ^ 32,
                inp.ts_us % 2 ^ 32, fmt2 d.yaw, fmt2 d.pitch, fmt2 d.roll,
                fmt3 d.ax, fmt3 d.ay, fmt3 d.az⟩ := by
            rw [runStep_tick_eq, hlt]
            rfl
          have hsq : (runStep st (Ev.tick inp)).1.seqNo = (st.seqNo + 1) % 2 ^ 32 := by
            rw [runStep_tick_eq, hlt]
          rw [emittedSeqs_cons_some st _ rest _ hfr, frames_cons_some st _ rest _ hfr,
            ih, hsq, List.length_cons, List.range_succ_eq_map, List.map_cons,
            List.map_map]
          congr 1
          apply List.map_congr_left
          intro k hk
          simp only [Function.comp_apply, Nat.succ_eq_add_one, Nat.add_assoc,
            Nat.mod_add_mod]
          congr 1
          omega
        · have hlt := loopTick_skips st inp d hs ht
          have hfr : (runStep st (Ev.tick inp)).2.frame = none := by
            rw [runStep_tick_eq, hlt]
            rfl
          have hsq : (runStep st (Ev.tick inp)).1.seqNo = st.seqNo := by
            rw [runStep_tick_eq, hlt]
          rw [emittedSeqs_cons_none st _ rest hfr, frames_cons_none st _ rest hfr, ih, hsq]

/-- C6 (amended): from a fresh session (`seqNo = 0`), the `i`-th frame a
lossless receiver observes carries `seq = i + 1` as long as `i + 1` stays
below `2 ^ 32`: the sequence numbers increase by exactly 1 per emitted frame
with no duplicates and no gaps.  (At the `2 ^ 32`-th frame the `uint32_t`
counter wraps to 0.) -/
theorem seq_increments_by_one (st : DevState) (es : List Ev) (h0 : st.seqNo = 0)
    (i : ℕ) (hi : i < (frames st es).length) (hw : i + 1 < 2 ^ 32) :
    (emittedSeqs st es).get? i = some (i + 1) := by
  rw [emittedSeqs_formula, List.get?_map, List.get?_range hi, Option.map_some', h0]
  rw [Nat.zero_add, Nat.mod_eq_of_lt hw]

/-- Witness for the amended C6: a concrete two-tick run from the reset state
emits frames with `seq = 1` and `seq = 2`. -/
theorem seq_increments_by_one_witness :
    (emittedSeqs initState esNoHello).get? 0 = some 1 ∧
    (emittedSeqs initState esNoHello).get? 1 = some 2 :=
  ⟨seq_increments_by_one initState esNoHello rfl 0 (by decide) (by decide),
    seq_increments_by_one initState esNoHello rfl 1 (by decide) (by decide)⟩

/-- A tick whose `millis()` reads `16 * k`: consecutive such ticks are
exactly one throttle window apart, so each one emits. -/
def tickEvery16 (k : ℕ) : Ev := Ev.tick ⟨some s0, 16 * k, 0, 0⟩

theorem sub32_step (m : ℕ) :
    sub32 ((16 * (m + 1)) % 2 ^ 32) ((16 * m) % 2 ^ 32) = 16 := by
  have hN : (2 : ℕ) ^ 32 = 4294967296 := by norm_num
  rw [sub32, hN]
  omega

theorem ticks_every16_all_emit (n : ℕ) : ∀ (m : ℕ) (st : DevState),
    st.lastSend = (16 * m) % 2 ^ 32 →
    (frames st ((List.range n).map (fun i => tickEvery16 (m + i + 1)))).length = n := by
  induction n with
  | zero =>
    intro m st h
    rfl
  | succ n ih =>
    intro m st h
    have ht : 16 ≤ sub32 ((16 * (m + 1)) % 2 ^ 32) st.lastSend := by
      rw [h, sub32_step m]
    have hlt := loopTick_emits st (⟨some s0, 16 * (m + 1), 0, 0⟩ : TickIn) s0 rfl ht
    have hfr : (runStep st (tickEvery16 (m + 1))).2.frame =
        some ⟨(st.seqNo + 1) % 2 ^ 32, (16 * (m + 1)) % 2 ^ 32, 0 % 2 ^ 32, 0 % 2 ^ 32,
          fmt2 s0.yaw, fmt2 s0.pitch, fmt2 s0.roll, fmt3 s0.ax, fmt3 s0.ay, fmt3 s0.az⟩ := by
      rw [tickEvery16, runStep_tick_eq, hlt]
      rfl
    have hls : (runStep st (tickEvery16 (m + 1))).1.lastSend = (16 * (m + 1)) % 2 ^ 32 := by
      rw [tickEvery16, runStep_tick_eq, hlt]
    rw [List.range_succ_eq_map, List.map_cons, List.map_map]
    have hmap : (List.map ((fun i => tickEvery16 (m + i + 1)) ∘ Nat.succ) (List.range n)) =
        (List.range n).map (fun i => tickEvery16 ((m + 1) + i + 1)) := by
      apply List.map_congr_left
      intro k hk
      simp only [Function.comp_apply, Nat.succ_eq_add_one]
      congr 1
      omega
    rw [Nat.add_zero, hmap, frames_cons_some _ _ _ _ hfr, List.length_cons,
      ih (m + 1) _ hls]

/-- A session-long run of `2 ^ 32` emitting ticks. -/
def wrapTrace : List Ev := (List.range (2 ^ 32)).map (fun i => tickEvery16 (i + 1))

theorem wrapTrace_frames_length : (frames initState wrapTrace).length = 2 ^ 32 := by
  have h := ticks_every16_all_emit (2 ^ 32) 0 initState rfl
  rw [wrapTrace]
  rw [show (fun i => tickEvery16 (i + 1)) = (fun i => tickEvery16 (0 + i + 1)) from
    funext fun i => by rw [Nat.zero_add]]
  exact h

/-- Counterexample to C6 as stated: in the run `wrapTrace` of a single device
session, the frame at position `2 ^ 32 - 2` carries `seq = 2 ^ 32 - 1` but the
very next frame carries `seq = 0`, not `2 ^ 32`: the observed sequence numbers
are not strictly increasing by exactly 1 for every run. -/
theorem seq_wraps_cex :
    (emittedSeqs initState wrapTrace).get? (2 ^ 32 - 2) = some (2 ^ 32 - 1) ∧
    (emittedSeqs initState wrapTrace).get? (2 ^ 32 - 1) = some 0 ∧
    (emittedSeqs initState wrapTrace).get? (2 ^ 32 - 1) ≠ some (2 ^ 32) := by
  have hN : (2 : ℕ) ^ 32 = 4294967296 := by norm_num
  have hf := emittedSeqs_formula wrapTrace initState
  rw [wrapTrace_frames_length] at hf
  have h1 : (emittedSeqs initState wrapTrace).get? (2 ^ 32 - 2) = some (2 ^ 32 - 1) := by
    rw [hf, List.get?_map, List.get?_range (by omega), Option.map_some']
    decide
  have h2 : (emittedSeqs initState wrapTrace).get? (2 ^ 32 - 1) = some 0 := by
    rw [hf, List.get?_map, List.get?_range (by omega), Option.map_some']
    decide
  refine ⟨h1, h2, ?_⟩
  rw [h2]
  intro hcontra
  have := Option.some.inj hcontra
  omega

/-! ### Theorems: rate limiter -/

theorem emitTimes_cons_none (st : DevState) (e : Ev) (es : List Ev)
    (h : (runStep st e).2.frame = none) :
    emitTimes st (e :: es) = emitTimes (runStep st e).1 es := by
  simp only [emitTimes]
  rw [frames_cons_none st e es h]

theorem emitTimes_cons_some (st : DevState) (e : Ev) (es : List Ev) (f : DataFrame)
    (h : (runStep st e).2.frame = some f) :
    emitTimes st (e :: es) = f.t_ms :: emitTimes (runStep st e).1 es := by
  simp only [emitTimes]
  rw [frames_cons_some st e es f h, List.map_cons]

theorem emit_spacing (st : DevState) (es : List Ev) :
    List.Chain' (fun a b => 16 ≤ sub32 b a) (st.lastSend :: emitTimes st es) := by
  induction es generalizing st with
  | nil => simp [emitTimes, frames, outs, run]
  | cons e rest ih =>
    cases e with
    | msg m now =>
      have hfr : (runStep st (Ev.msg m now)).2.frame = none := by rw [runStep_msg_eq]
      have hls : (runStep st (Ev.msg m now)).1.lastSend = st.lastSend := by
        rw [runStep_msg_eq]
        exact wsEvent_lastSend st m now
      rw [emitTimes_cons_none st _ rest hfr]
      have := ih (runStep st (Ev.msg m now)).1
      rw [hls] at this
      exact this
    | tick inp =>
      rcases hs : inp.sample with _ | d
      · have hlt := loopTick_no_sample st inp hs
        have hfr : (runStep st (Ev.tick inp)).2.frame = none := by
          rw [runStep_tick_eq, hlt]
          rfl
        have hls : (runStep st (Ev.tick inp)).1.lastSend = st.lastSend := by
          rw [runStep_tick_eq, hlt]
        rw [emitTimes_cons_none st _ rest hfr]
        have := ih (runStep st (Ev.tick inp)).1
        rw [hls] at this
        exact this
      · by_cases ht : 16 ≤ sub32 (inp.t_ms % 2 ^ 32) st.lastSend
        · have hlt := loopTick_emits st inp d hs ht
          have hfr : (runStep st (Ev.tick inp)).2.frame =
              some ⟨(st.seqNo + 1) % 2 ^ 32, inp.t_ms % 2 ^ 32, inp.tr_us % 2 ^ 32,
                inp.ts_us % 2 ^ 32, fmt2 d.yaw, fmt2 d.pitch, fmt2 d.roll,
                fmt3 d.ax, fmt3 d.ay, fmt3 d.az⟩ := by
            rw [runStep_tick_eq, hlt]
            rfl
          have hls : (runStep st (Ev.tick inp)).1.lastSend = inp.t_ms % 2 ^ 32 := by
            rw [runStep_tick_eq, hlt]
          rw [emitTimes_cons_some st _ rest _ hfr, List.chain'_cons]
          refine ⟨ht, ?_⟩
          have := ih (runStep st (Ev.tick inp)).1
          rw [hls] at this
          exact this
        · have hlt := loopTick_skips st inp d hs ht
          have hfr : (runStep st (Ev.tick inp)).2.frame = none := by
            rw [runStep_tick_eq, hlt]
            rfl
          have hls : (runStep st (Ev.tick inp)).1.lastSend = st.lastSend := by
            rw [runStep_tick_eq, hlt]
          rw [emitTimes_cons_none st _ rest hfr]
          have := ih (runStep st (Ev.tick inp)).1
          rw [hls] at this
          exact this

/-- C9: given a fresh sample, the loop emits exactly when
`now - lastEmit ≥ 16` in `uint32_t` arithmetic; on emission `lastSend` is set
to `now`, and otherwise the sample is dropped with no state change (no
buffering), so any two consecutive emissions are at least one 16 ms target
period apart. -/
theorem rate_limiter_spec :
    (∀ (st : DevState) (inp : TickIn) (d : Sample), inp.sample = some d →
      (((loopTick st inp).2 ≠ none) ↔ 16 ≤ sub32 (inp.t_ms % 2 ^ 32) st.lastSend) ∧
      (16 ≤ sub32 (inp.t_ms % 2 ^ 32) st.lastSend →
        (loopTick st inp).1.lastSend = inp.t_ms % 2 ^ 32) ∧
      (sub32 (inp.t_ms % 2 ^ 32) st.lastSend < 16 → loopTick st inp = (st, none))) ∧
    ∀ (st : DevState) (es : List Ev),
      List.Chain' (fun a b => 16 ≤ sub32 b a) (st.lastSend :: emitTimes st es) := by
  refine ⟨fun st inp d hs => ⟨?_, ?_, ?_⟩, emit_spacing⟩
  · constructor
    · intro hne
      by_contra ht
      rw [loopTick_skips st inp d hs ht] at hne
      exact hne rfl
    · intro ht
      rw [loopTick_emits st inp d hs ht]
      simp
  · intro ht
    rw [loopTick_emits st inp d hs ht]
  · intro ht
    exact loopTick_skips st inp d hs (by omega)

/-- A tick arriving 10 ms after the last emission. -/
def lateState : DevState := ⟨noIP, 3, 30⟩

/-- A tick input at `millis() = 40`. -/
def tick40 : TickIn := ⟨some s0, 40, 7, 9⟩

/-- Witness for C9: at `lastSend = 30` a sample at `t = 40` (10 ms later) is
dropped with no state change, and a concrete run satisfies the spacing
chain. -/
theorem rate_limiter_spec_witness :
    ((((loopTick lateState tick40).2 ≠ none) ↔
        16 ≤ sub32 (tick40.t_ms % 2 ^ 32) lateState.lastSend) ∧
      (16 ≤ sub32 (tick40.t_ms % 2 ^ 32) lateState.lastSend →
        (loopTick lateState tick40).1.lastSend = tick40.t_ms % 2 ^ 32) ∧
      (sub32 (tick40.t_ms % 2 ^ 32) lateState.lastSend < 16 →
        loopTick lateState tick40 = (lateState, none))) ∧
    List.Chain' (fun a b => 16 ≤ sub32 b a) (initState.lastSend :: emitTimes initState esNoHello) :=
  ⟨rate_limiter_spec.1 lateState tick40 s0 rfl, rate_limiter_spec.2 initState esNoHello⟩

/-! ### Theorems: the two channel encodings -/

/-- C10 (amended): whenever a tick emits both a control-channel data frame and
a UDP telemetry packet, the two encode the same sequenced sample: the `seq`,
`t_ms`, `tr_us`, `ts_us` fields are identical, while each float field of the
JSON frame is the packet's (exact) value quantized by the frame's fixed-point
text formatting (`%.2f` for angles, `%.3f` for accelerations). -/
theorem channels_carry_same_sample (st : DevState) (inp : TickIn) (f : DataFrame)
    (u : TelemetryPkt) (h : (loopTick st inp).2 = some (f, some u)) :
    f.seq = u.seq ∧ f.t_ms = u.t_ms ∧ f.tr_us = u.tr_us ∧ f.ts_us = u.ts_us ∧
    f.yaw = fmt2 u.yaw ∧ f.pitch = fmt2 u.pitch ∧ f.roll = fmt2 u.roll ∧
    f.ax = fmt3 u.ax ∧ f.ay = fmt3 u.ay ∧ f.az = fmt3 u.az := by
  rcases hs : inp.sample with _ | d
  · rw [loopTick_no_sample st inp hs] at h
    cases h
  · by_cases ht : 16 ≤ sub32 (inp.t_ms % 2 ^ 32) st.lastSend
    · rw [loopTick_emits st inp d hs ht] at h
      by_cases hip : st.lastClientIP ≠ noIP
      · rw [if_pos hip] at h
        simp only [Option.some.injEq, Prod.mk.injEq] at h
        obtain ⟨hf, hu⟩ := h
        subst hf
        subst hu
        exact ⟨rfl, rfl, rfl, rfl, rfl, rfl, rfl, rfl, rfl, rfl⟩
      · rw [if_neg hip] at h
        simp at h
    · rw [loopTick_skips st inp d hs ht] at h
      cases h

/-- A device state with the endpoint `10.0.0.5` registered. -/
def stCex : DevState := ⟨"10.0.0.5".toList, 0, 0⟩

/-- A sample whose yaw reads `1.234` (not representable in two decimal
places). -/
def sCex : Sample := ⟨617 / 500, 0, 0, 0, 0, 0⟩

/-- A tick carrying `sCex` at `millis() = 100`. -/
def tickCex : TickIn := ⟨some sCex, 100, 7, 9⟩

/-- Counterexample to C10 as stated: on the emitted tick `tickCex` the JSON
data frame carries `yaw = 1.23` (after `%.2f` formatting) while the UDP packet
carries `yaw = 1.234`; the two channels do not carry identical `yaw`
values. -/
theorem channels_values_differ_cex :
    (loopTick stCex tickCex).2 =
      some (⟨1, 100, 7, 9, 123 / 100, 0, 0, 0, 0, 0⟩,
        some ⟨1, 100, 7, 9, 617 / 500, 0, 0, 0, 0, 0⟩) ∧
    (123 / 100 : ℚ) ≠ (617 / 500 : ℚ) := by
  constructor
  · rw [loopTick_emits stCex tickCex sCex rfl (by decide), if_pos (by decide)]
    norm_num [sCex, tickCex, stCex, fmt2, fmt3, round_eq]
  · norm_num

/-- A sample whose fields are exactly representable at the frame's precision. -/
def sRound : Sample := ⟨2, -3, 0, 1 / 2, 0, -1 / 4⟩

/-- A tick carrying `sRound` at `millis() = 50`. -/
def tickRound : TickIn := ⟨some sRound, 50, 1, 2⟩

/-- Witness for the amended C10: on a concrete emitted tick with a registered
endpoint, the frame and the packet agree on `seq`, timestamps, and on every
float field up to the frame's formatting. -/
theorem channels_carry_same_sample_witness :
    (loopTick stCex tickRound).2 =
      some (⟨1, 50, 1, 2, 2, -3, 0, 1 / 2, 0, -1 / 4⟩,
        some ⟨1, 50, 1, 2, 2, -3, 0, 1 / 2, 0, -1 / 4⟩) ∧
    ((DataFrame.mk 1 50 1 2 2 (-3) 0 (1 / 2) 0 (-1 / 4)).seq =
        (TelemetryPkt.mk 1 50 1 2 2 (-3) 0 (1 / 2) 0 (-1 / 4)).seq ∧
      (DataFrame.mk 1 50 1 2 2 (-3) 0 (1 / 2) 0 (-1 / 4)).t_ms =
        (TelemetryPkt.mk 1 50 1 2 2 (-3) 0 (1 / 2) 0 (-1 / 4)).t_ms ∧
      (DataFrame.mk 1 50 1 2 2 (-3) 0 (1 / 2) 0 (-1 / 4)).tr_us =
        (TelemetryPkt.mk 1 50 1 2 2 (-3) 0 (1 / 2) 0 (-1 / 4)).tr_us ∧
      (DataFrame.mk 1 50 1 2 2 (-3) 0 (1 / 2) 0 (-1 / 4)).ts_us =
        (TelemetryPkt.mk 1 50 1 2 2 (-3) 0 (1 / 2) 0 (-1 / 4)).ts_us ∧
      (DataFrame.mk 1 50 1 2 2 (-3) 0 (1 / 2) 0 (-1 / 4)).yaw =
        fmt2 (TelemetryPkt.mk 1 50 1 2 2 (-3) 0 (1 / 2) 0 (-1 / 4)).yaw ∧
      (DataFrame.mk 1 50 1 2 2 (-3) 0 (1 / 2) 0 (-1 / 4)).pitch =
        fmt2 (TelemetryPkt.mk 1 50 1 2 2 (-3) 0 (1 / 2) 0 (-1 / 4)).pitch ∧
      (DataFrame.mk 1 50 1 2 2 (-3) 0 (1 / 2) 0 (-1 / 4)).roll =
        fmt2 (TelemetryPkt.mk 1 50 1 2 2 (-3) 0 (1 / 2) 0 (-1 / 4)).roll ∧
      (DataFrame.mk 1 50 1 2 2 (-3) 0 (1 / 2) 0 (-1 / 4)).ax =
        fmt3 (TelemetryPkt.mk 1 50 1 2 2 (-3) 0 (1 / 2) 0 (-1 / 4)).ax ∧
      (DataFrame.mk 1 50 1 2 2 (-3) 0 (1 / 2) 0 (-1 / 4)).ay =
        fmt3 (TelemetryPkt.mk 1 50 1 2 2 (-3) 0 (1 / 2) 0 (-1 / 4)).ay ∧
      (DataFrame.mk 1 50 1 2 2 (-3) 0 (1 / 2) 0 (-1 / 4)).az =
        fmt3 (TelemetryPkt.mk 1 50 1 2 2 (-3) 0 (1 / 2) 0 (-1 / 4)).az) := by
  have hev : (loopTick stCex tickRound).2 =
      some (⟨1, 50, 1, 2, 2, -3, 0, 1 / 2, 0, -1 / 4⟩,
        some ⟨1, 50, 1, 2, 2, -3, 0, 1 / 2, 0, -1 / 4⟩) := by
    rw [loopTick_emits stCex tickRound sRound rfl (by decide), if_pos (by decide)]
    norm_num [sRound, tickRound, stCex, fmt2, fmt3, round_eq]
  exact ⟨hev, channels_carry_same_sample stCex tickRound _ _ hev⟩

end MooseJumpLights
